import Mathlib

/-!
Shallow embedding of `scrape_punjabipedia_definitions` (src/app.py, lines 48-147).

The routine fetches a Punjabipedia results page for a word, parses it with
BeautifulSoup (`html.parser`), locates a content container, and walks
heading-delimited blocks, returning either a list of definition entries
(dicts with keys `Source` and `Definitions`) or an error string.

Modelling conventions:
  - The parsed HTML document is modelled in first-child/next-sibling form:
    a `Dom` value is a forest of sibling nodes (each element node carries
    its subtree and the forest of its following siblings), and a `Tag` is
    one element (a BeautifulSoup `Tag`): its name, its raw `class`
    attribute, and its children forest.  The whole soup is the forest of
    top-level nodes.
  - `find`/`find_all` search tag descendants recursively in document
    (pre-)order and never match string nodes; `find_next_sibling()` with no
    arguments steps to the next sibling tag, skipping string nodes.
  - A `class_` string query matches a tag when the query equals one of the
    tag's whitespace-separated classes, or the whole class attribute value.
  - Python strings are Lean `String`s; `str.strip()` and the regex class
    `\s` use the Python whitespace set (`pyIsSpace`); `re.IGNORECASE` is
    modelled by comparing `Char.toLower` images.
  - The fetch is modelled by a `FetchOutcome` environment parameter: a
    parsed body on HTTP success, or one of the exception classes caught by
    the `try`/`except` blocks (lines 144-147).  The duck-typed return value
    (error `str` vs `list`) is `Sum String (List DefinitionEntry)`.
-/

/-- A forest of parsed HTML nodes in document order, in first-child /
next-sibling form: an element node has a tag name, an optional raw `class`
attribute value, a children forest and the forest of its following
siblings; a string node has its text and the forest of its following
siblings. -/
inductive Dom where
  | nil
  | elem (tag : String) (classAttr : Option String) (children next : Dom)
  | text (s : String) (next : Dom)
deriving DecidableEq, Repr

/-- One element of the tree, as returned by `find`/`find_all`: its name,
its raw `class` attribute value and its children forest. -/
structure Tag where
  tag : String
  classAttr : Option String
  children : Dom
deriving DecidableEq, Repr

/-- Python whitespace (the `str.isspace` set, also used for `str.strip()`
and the regex class `\s` on `str` patterns). -/
def pyIsSpace (c : Char) : Bool :=
  List.contains
    [0x09, 0x0A, 0x0B, 0x0C, 0x0D, 0x1C, 0x1D, 0x1E, 0x1F, 0x20, 0x85, 0xA0,
     0x1680, 0x2000, 0x2001, 0x2002, 0x2003, 0x2004, 0x2005, 0x2006, 0x2007,
     0x2008, 0x2009, 0x200A, 0x2028, 0x2029, 0x202F, 0x205F, 0x3000]
    c.toNat

/-- Python `str.strip()` on a character list. -/
def pyStripCh (s : List Char) : List Char :=
  ((s.dropWhile pyIsSpace).reverse.dropWhile pyIsSpace).reverse

/-- Python `str.strip()`. -/
def pyStrip (s : String) : String :=
  String.mk (pyStripCh s.data)

/-- Python `str.split()` with no arguments (runs of whitespace, no empty
parts), used by BeautifulSoup to turn a `class` attribute into a class
list.  `cur` holds the characters of the current part, reversed. -/
def splitWsAux (cur : List Char) : List Char → List (List Char)
  | [] => if cur.isEmpty then [] else [cur.reverse]
  | c :: rest =>
    if pyIsSpace c then
      if cur.isEmpty then splitWsAux [] rest
      else cur.reverse :: splitWsAux [] rest
    else splitWsAux (c :: cur) rest

/-- The whitespace-separated class list of a raw `class` attribute value. -/
def classList (attr : String) : List String :=
  (splitWsAux [] attr.data).map String.mk

/-- BeautifulSoup `class_=q` match for a string `q`: the tag has a `class`
attribute and `q` is one of its classes, or `q` equals the whole attribute
value (this second form is how `class_='col-sm-12 main-box'` matches). -/
def hasClassQuery (q : String) (t : Tag) : Bool :=
  match t.classAttr with
  | some attr => (classList attr).contains q || attr = q
  | none => false

/-- The stripped strings of a forest in document order, skipping strings
that are empty after stripping — BeautifulSoup's `stripped_strings`, the
basis of `get_text(..., strip=True)`. -/
def strippedStrings : Dom → List String
  | .nil => []
  | .text s next =>
    (if (pyStrip s).isEmpty then [] else [pyStrip s]) ++ strippedStrings next
  | .elem _ _ children next => strippedStrings children ++ strippedStrings next

/-- Join a list of strings with a separator. -/
def joinSep (sep : String) : List String → String
  | [] => ""
  | [s] => s
  | s :: rest => s ++ sep ++ joinSep sep rest

/-- BeautifulSoup `t.get_text(separator=sep, strip=True)`;
`get_text(strip=True)` is the `sep = ""` case. -/
def getText (sep : String) (t : Tag) : String :=
  joinSep sep (strippedStrings t.children)

/-- One left-to-right pass of `re.sub(r'\[.*?\]', '', s)` (line 121).
State `none`: outside any candidate match.  State `some buf`: a `[` has
been read and `buf` (reversed) holds the characters read since; a `]`
closes the span non-greedily and the whole span is dropped, while `.` not
matching a newline means an intervening `'\n'` (or the end of input) aborts
the candidate, whose characters are emitted unchanged.  (No character in
`buf` can start a successful match itself: a `]` closing it would have
closed the aborted candidate first.) -/
def bracketSubAux : Option (List Char) → List Char → List Char
  | none, [] => []
  | none, c :: rest =>
    if c = '[' then bracketSubAux (some []) rest
    else c :: bracketSubAux none rest
  | some buf, [] => '[' :: buf.reverse
  | some buf, c :: rest =>
    if c = ']' then bracketSubAux none rest
    else if c = '\n' then '[' :: buf.reverse ++ '\n' :: bracketSubAux none rest
    else bracketSubAux (some (c :: buf)) rest

/-- `re.sub(r'\[.*?\]', '', s)`: remove bracketed annotation spans. -/
def bracketSub (s : String) : String :=
  String.mk (bracketSubAux none s.data)

/-- Case-insensitive literal prefix match: `some rest` when `w` (the
`re.escape`d word) matches an initial segment of `s` under `re.IGNORECASE`,
with `rest` the remainder. -/
def dropPrefixIC : List Char → List Char → Option (List Char)
  | [], s => some s
  | _ :: _, [] => none
  | w :: ws, c :: cs => if w.toLower = c.toLower then dropPrefixIC ws cs else none

/-- The optional separator class `[\.,—:]?` after the word. -/
def dropOptSep : List Char → List Char
  | [] => []
  | c :: rest =>
    if c = '.' || c = ',' || c = '—' || c = ':' then rest else c :: rest

/-- `re.sub(rf'^{re.escape(word)}\s*[\.,—:]?', '', s, flags=re.IGNORECASE)`
(lines 124-129): anchored at the start (no `re.MULTILINE`), so at most one
leading occurrence of the word, then any whitespace, then at most one
separator, is removed; otherwise the string is unchanged. -/
def wordSub (word s : String) : String :=
  match dropPrefixIC word.data s.data with
  | none => s
  | some rest => String.mk (dropOptSep (rest.dropWhile pyIsSpace))

/-- Python `str.replace('ਸਰੋਤ :', '')` (line 112): every occurrence of the
six-character label `ਸਰੋਤ :` is removed, scanning left to right without
rescanning replaced text. -/
def replaceSrotCh : List Char → List Char
  | 'ਸ' :: 'ਰ' :: 'ੋ' :: 'ਤ' :: ' ' :: ':' :: rest => replaceSrotCh rest
  | c :: rest => c :: replaceSrotCh rest
  | [] => []

/-- Lines 111-112: clean the attribution text
(`source_text.replace('ਸਰੋਤ :', '').strip()`). -/
def cleanSource (s : String) : String :=
  pyStrip (String.mk (replaceSrotCh s.data))

/-- Lines 118-129: clean one paragraph's extracted text — strip bracketed
spans then strip, strip a leading occurrence of the queried word then
strip. -/
def cleanDefinitionText (word text : String) : String :=
  pyStrip (wordSub word (pyStrip (bracketSub text)))

/-- BeautifulSoup `find` over a forest: the first tag in document
(pre-)order satisfying `p`, searching each tag before its descendants.
`soup.find(...)` is this applied to the document's forest, `t.find(...)`
this applied to `t`'s children forest. -/
def findTag (p : Tag → Bool) : Dom → Option Tag
  | .nil => none
  | .text _ next => findTag p next
  | .elem t a children next =>
    if p ⟨t, a, children⟩ then some ⟨t, a, children⟩
    else
      match findTag p children with
      | some m => some m
      | none => findTag p next

/-- BeautifulSoup `find_all` over a forest: all tags satisfying `p` in
document (pre-)order. -/
def findAllTags (p : Tag → Bool) : Dom → List Tag
  | .nil => []
  | .text _ next => findAllTags p next
  | .elem t a children next =>
    (if p ⟨t, a, children⟩ then [Tag.mk t a children] else [])
      ++ findAllTags p children ++ findAllTags p next

/-- Line 83, `main_content.find_all('h1')`, paired with the data the loop
body needs: each `h1` descendant, in document order, together with the
forest of its following siblings (the nodes `find_next_sibling()` can
reach from it). -/
def findBlocks : Dom → List (Tag × Dom)
  | .nil => []
  | .text _ next => findBlocks next
  | .elem t a children next =>
    (if t = "h1" then [(Tag.mk t a children, next)] else [])
      ++ findBlocks children ++ findBlocks next

/-- Lines 90-105, the sibling walk: starting from the heading's following
siblings, step through sibling tags (`find_next_sibling()` skips string
nodes), stop at an `h1` or `hr` tag or at the end of the siblings, and for
each `p` tag collect its nested `p` descendants if it has any, else the
tag itself. -/
def collectParas : Dom → List Tag
  | .nil => []
  | .text _ next => collectParas next
  | .elem t a children next =>
    if t = "h1" || t = "hr" then []
    else
      (if t = "p" then
        match findAllTags (fun tg => tg.tag = "p") children with
        | [] => [Tag.mk t a children]
        | nested => nested
       else []) ++ collectParas next

/-- One element of the returned list (lines 137-140): a dict with the
cleaned source text and the cleaned paragraph texts. -/
structure DefinitionEntry where
  source : String
  definitions : List String
deriving DecidableEq, Repr

/-- Lines 115-133: clean each collected paragraph and keep it only when it
is non-empty and longer than one character after stripping. -/
def cleanedParagraphs (word : String) (paras : List Tag) : List String :=
  paras.filterMap fun para =>
    let t := cleanDefinitionText word (getText " " para)
    if t ≠ "" ∧ 1 < (pyStrip t).length then some t else none

/-- Lines 87-140, the loop body for one heading: look up the attribution
tag (`h1.find('small')`), collect the block's paragraph candidates, and
emit an entry only when a source tag and at least one candidate were found
(line 108) and both the cleaned source and the cleaned paragraph list are
non-empty (line 136). -/
def processBlock (word : String) (heading : Tag) (siblings : Dom) :
    Option DefinitionEntry :=
  match findTag (fun tg => tg.tag = "small") heading.children with
  | none => none
  | some source_tag =>
    match collectParas siblings with
    | [] => none
    | definition_paragraphs =>
      let source_text := cleanSource (getText "" source_tag)
      let definition_texts := cleanedParagraphs word definition_paragraphs
      if source_text ≠ "" ∧ definition_texts ≠ [] then
        some ⟨source_text, definition_texts⟩
      else none

/-- Lines 83-142: the entries of all heading blocks of the content
container, in heading document order. -/
def extractEntries (word : String) (main_content : Tag) : List DefinitionEntry :=
  (findBlocks main_content.children).filterMap fun b => processBlock word b.1 b.2

/-- Line 70: the query of `soup.find('div', class_='col-sm-10')`. -/
def isPrimaryContainer (t : Tag) : Bool :=
  t.tag = "div" && hasClassQuery "col-sm-10" t

/-- Line 74: the query of `soup.find('div', class_='col-sm-12 main-box')`. -/
def isSecondaryContainer (t : Tag) : Bool :=
  t.tag = "div" && hasClassQuery "col-sm-12 main-box" t

/-- Lines 68-77: the container fallback chain — primary class, then
secondary class, then the document body. -/
def findMainContent (doc : Dom) : Option Tag :=
  match findTag isPrimaryContainer doc with
  | some m => some m
  | none =>
    match findTag isSecondaryContainer doc with
    | some m => some m
    | none => findTag (fun tg => tg.tag = "body") doc

/-- The behaviour of the fetch/parse environment for one call: a parsed
body on HTTP success (BeautifulSoup's `html.parser` parses any byte string
without raising), or one of the exception classes the `try` block can see —
`raise_for_status()` on a non-2xx response and transport failures both
raise a `requests.exceptions.RequestException` (line 144), and any other
unexpected fault is an arbitrary `Exception` (line 146). -/
inductive FetchOutcome where
  | success (doc : Dom)
  | httpError (desc : String)
  | transportError (desc : String)
  | unexpectedFault (desc : String)

/-- An outcome in which the fetch or parse faults rather than yielding a
parsed page. -/
def FetchOutcome.isFault : FetchOutcome → Bool
  | .success _ => false
  | _ => true

/-- Lines 48-147, `scrape_punjabipedia_definitions(word)` as a function of
the word and the fetch environment's behaviour: an error string (`Sum.inl`)
or a list of definition entries (`Sum.inr`). -/
def scrape_punjabipedia_definitions (word : String) (outcome : FetchOutcome) :
    Sum String (List DefinitionEntry) :=
  match outcome with
  | .httpError desc =>
    Sum.inl ("An error occurred while fetching the page: " ++ desc)
  | .transportError desc =>
    Sum.inl ("An error occurred while fetching the page: " ++ desc)
  | .unexpectedFault desc =>
    Sum.inl ("An unexpected error occurred: " ++ desc)
  | .success doc =>
    match findMainContent doc with
    | none => Sum.inl "Could not find the main content container."
    | some main_content => Sum.inr (extractEntries word main_content)

/-- The sibling tags of a forest, string nodes skipped and descendants not
entered — the nodes a `find_next_sibling()` walk passes through. -/
def siblingTags : Dom → List Tag
  | .nil => []
  | .text _ next => siblingTags next
  | .elem t a children next => Tag.mk t a children :: siblingTags next

/-- Modelled from the spec (for comparison with the code's recursive
`find_all('h1')`): the top-level heading elements of the content region,
i.e. the heading elements among the region's direct children. -/
def topLevelHeadings (main_content : Tag) : List Tag :=
  (siblingTags main_content.children).filter fun tg => tg.tag = "h1"

/-! ### Helper lemmas -/

theorem pyStripCh_length_le (s : List Char) : (pyStripCh s).length ≤ s.length := by
  unfold pyStripCh
  calc ((s.dropWhile pyIsSpace).reverse.dropWhile pyIsSpace).reverse.length
      = ((s.dropWhile pyIsSpace).reverse.dropWhile pyIsSpace).length := by
        rw [List.length_reverse]
    _ ≤ (s.dropWhile pyIsSpace).reverse.length :=
        (List.dropWhile_suffix _).length_le
    _ = (s.dropWhile pyIsSpace).length := by rw [List.length_reverse]
    _ ≤ s.length := (List.dropWhile_suffix _).length_le

theorem pyStrip_length_le (s : String) : (pyStrip s).length ≤ s.length :=
  pyStripCh_length_le s.data

theorem collectParas_characterization (siblings : Dom) :
    collectParas siblings =
      (((siblingTags siblings).takeWhile fun tg => !(tg.tag = "h1" || tg.tag = "hr")).filter
          fun tg => tg.tag = "p").flatMap
        fun tg =>
          match findAllTags (fun x => x.tag = "p") tg.children with
          | [] => [tg]
          | nested => nested := by
  induction siblings with
  | nil => rfl
  | text s next ih => simpa [collectParas, siblingTags] using ih
  | elem t a children next ihc ihn =>
    by_cases h1 : t = "h1"
    · simp [collectParas, siblingTags, h1]
    · by_cases hr : t = "hr"
      · simp [collectParas, siblingTags, hr]
      · by_cases hp : t = "p"
        · simp [collectParas, siblingTags, h1, hr, hp, List.takeWhile_cons,
            List.filter_cons, ihn]
        · simp [collectParas, siblingTags, h1, hr, hp, List.takeWhile_cons,
            List.filter_cons, ihn]

theorem findBlocks_map_fst (d : Dom) :
    (findBlocks d).map Prod.fst = findAllTags (fun tg => tg.tag = "h1") d := by
  induction d with
  | nil => rfl
  | text s next ih => simpa [findBlocks, findAllTags] using ih
  | elem t a children next ihc ihn =>
    by_cases h : t = "h1" <;>
      simp [findBlocks, findAllTags, h, ihc, ihn]

theorem bracketSubAux_close (span : List Char) (buf post : List Char)
    (h₁ : ']' ∉ span) (h₂ : '\n' ∉ span) :
    bracketSubAux (some buf) (span ++ ']' :: post) = bracketSubAux none post := by
  induction span generalizing buf with
  | nil => simp [bracketSubAux]
  | cons c rest ih =>
    have hc₁ : ¬(c = ']') := fun h => h₁ (by simp [h])
    have hc₂ : ¬(c = '\n') := fun h => h₂ (by simp [h])
    have h₁' : ']' ∉ rest := fun h => h₁ (List.mem_cons_of_mem _ h)
    have h₂' : '\n' ∉ rest := fun h => h₂ (List.mem_cons_of_mem _ h)
    simp only [List.cons_append, bracketSubAux, if_neg hc₁, if_neg hc₂]
    exact ih _ h₁' h₂'

theorem bracketSubAux_removes (pre span post : List Char)
    (h₀ : '[' ∉ pre) (h₁ : ']' ∉ span) (h₂ : '\n' ∉ span) :
    bracketSubAux none (pre ++ '[' :: (span ++ ']' :: post)) =
      pre ++ bracketSubAux none post := by
  induction pre with
  | nil =>
    simp only [List.nil_append, bracketSubAux, if_pos rfl]
    exact bracketSubAux_close span [] post h₁ h₂
  | cons c rest ih =>
    have hc : ¬(c = '[') := fun h => h₀ (by simp [h])
    have h₀' : '[' ∉ rest := fun h => h₀ (List.mem_cons_of_mem _ h)
    simp only [List.cons_append, bracketSubAux, if_neg hc]
    exact congrArg (List.cons c) (ih h₀')

theorem processBlock_some_inv (word : String) (heading : Tag) (siblings : Dom)
    (e : DefinitionEntry) (h : processBlock word heading siblings = some e) :
    e.source ≠ "" ∧ e.definitions ≠ [] ∧ (∀ d ∈ e.definitions, 1 < d.length) ∧
      e.definitions = cleanedParagraphs word (collectParas siblings) := by
  unfold processBlock at h
  split at h
  · exact Option.noConfusion h
  · split at h
    · exact Option.noConfusion h
    · simp only at h
      split at h
      · rename_i hcond
        cases h
        refine ⟨hcond.1, hcond.2, ?_, rfl⟩
        intro d hd
        simp only [cleanedParagraphs, List.mem_filterMap] at hd
        obtain ⟨para, _, hpara⟩ := hd
        split at hpara
        · rename_i hkeep
          cases hpara
          exact lt_of_lt_of_le hkeep.2 (pyStrip_length_le _)
        · exact Option.noConfusion hpara
      · exact Option.noConfusion h

/-! ### Concrete pages used by witnesses and counterexamples -/

/-- An attribution element: `<small>ਸਰੋਤ : ਮਹਾਨ ਕੋਸ਼</small>`. -/
def exampleSmall : Dom := .elem "small" none (.text "ਸਰੋਤ : ਮਹਾਨ ਕੋਸ਼" .nil) .nil

/-- A heading containing a title string and the attribution element. -/
def exampleHeading : Tag := ⟨"h1", none, .text "ਸਿਰਲੇਖ" exampleSmall⟩

/-- The heading's following siblings: a whitespace string node and one
paragraph. -/
def exampleSiblings : Dom :=
  .text "\n" (.elem "p" none (.text "ਇਹ ਇੱਕ ਪਰਿਭਾਸ਼ਾ ਹੈ" .nil) .nil)

/-- One complete heading block as a forest. -/
def exampleBlock : Dom := .elem "h1" none (.text "ਸਿਰਲੇਖ" exampleSmall) exampleSiblings

/-- The entry the example block yields. -/
def exampleEntry : DefinitionEntry := ⟨"ਮਹਾਨ ਕੋਸ਼", ["ਇਹ ਇੱਕ ਪਰਿਭਾਸ਼ਾ ਹੈ"]⟩

/-- A page whose content sits in the primary container class. -/
def examplePage : Dom :=
  .elem "html" none
    (.elem "body" none (.elem "div" (some "col-sm-10") exampleBlock .nil) .nil)
    .nil

/-- The secondary container holding the example block. -/
def secondaryContent : Tag := ⟨"div", some "col-sm-12 main-box", exampleBlock⟩

/-- A page with no primary container and no `body` tag, but with the
secondary container class. -/
def pageSecondaryOnly : Dom :=
  .elem "html" none (.elem "div" (some "col-sm-12 main-box") exampleBlock .nil) .nil

/-- A page with no recognised container and no `body` tag at all. -/
def pageBare : Dom := .elem "span" none (.text "ਖਾਲੀ ਪੰਨਾ" .nil) .nil

/-- A primary container with no heading elements. -/
def emptyContent : Tag := ⟨"div", some "col-sm-10", .text "ਕੋਈ ਸਿਰਲੇਖ ਨਹੀਂ" .nil⟩

/-- A page whose container holds no headings. -/
def pageNoHeadings : Dom :=
  .elem "html" none
    (.elem "div" (some "col-sm-10") (.text "ਕੋਈ ਸਿਰਲੇਖ ਨਹੀਂ" .nil) .nil) .nil

/-- A primary container whose only direct child is a plain `div` wrapping
the example block, so the heading is not a top-level child of the region. -/
def nestedContent : Tag := ⟨"div", some "col-sm-10", .elem "div" none exampleBlock .nil⟩

/-- A page whose heading block sits nested one `div` deeper inside the
container. -/
def pageNestedHeading : Dom :=
  .elem "html" none
    (.elem "div" (some "col-sm-10") (.elem "div" none exampleBlock .nil) .nil) .nil

/-- The attribution element of the duplicated block. -/
def dupSmall : Dom := .elem "small" none (.text "ਸਰੋਤ : ਕੋਸ਼" .nil) .nil

/-- Two identical heading blocks in a row. -/
def dupBlocks : Dom :=
  .elem "h1" none dupSmall
    (.elem "p" none (.text "ਦੁਹਰਾਇਆ ਪਾਠ" .nil)
      (.elem "h1" none dupSmall
        (.elem "p" none (.text "ਦੁਹਰਾਇਆ ਪਾਠ" .nil) .nil)))

/-- The entry each duplicated block yields. -/
def dupEntry : DefinitionEntry := ⟨"ਕੋਸ਼", ["ਦੁਹਰਾਇਆ ਪਾਠ"]⟩

/-- A page holding the two identical blocks in its primary container. -/
def pageDuplicateBlocks : Dom :=
  .elem "html" none (.elem "div" (some "col-sm-10") dupBlocks .nil) .nil

/-- A page whose attribution text carries the `ਸਰੋਤ :` label in the middle
rather than as a leading prefix of the text. -/
def pageMidLabel : Dom :=
  .elem "html" none
    (.elem "div" (some "col-sm-10")
      (.elem "h1" none
        (.elem "small" none (.text "ਪੰਜਾਬੀ ਕੋਸ਼ ਸਰੋਤ : ਭਾਸ਼ਾ ਵਿਭਾਗ" .nil) .nil)
        (.elem "p" none (.text "ਕੁਝ ਪਰਿਭਾਸ਼ਾ ਪਾਠ" .nil) .nil))
      .nil)
    .nil

/-- A heading with an attribution element (used to test block processing in
isolation). -/
def headingWithSmall : Tag := ⟨"h1", none, .elem "small" none (.text "ਸਰੋਤ : ਕੋਸ਼" .nil) .nil⟩

/-- Siblings in which the only paragraph is wrapped inside a `div`, not a
direct sibling of the heading. -/
def divWrappedSiblings : Dom :=
  .elem "div" none (.elem "p" none (.text "ਛੁਪੀ ਪਰਿਭਾਸ਼ਾ ਇੱਥੇ" .nil) .nil) .nil

/-- A sibling forest consisting of a single outer paragraph element that
wraps two inner paragraph elements. -/
def nestedParaSiblings : Dom :=
  .elem "p" none
    (.elem "p" none (.text "ਪਹਿਲਾ ਅੰਦਰਲਾ" .nil)
      (.elem "p" none (.text "ਦੂਜਾ ਅੰਦਰਲਾ" .nil) .nil))
    .nil

theorem append_ne_empty_left (p d : String) (hp : p ≠ "") : p ++ d ≠ "" := by
  intro h
  have h1 := congrArg String.length h
  rw [String.length_append, String.length_empty] at h1
  have hp0 : p.length = 0 := by omega
  cases p with
  | mk data =>
    cases data with
    | nil => exact hp rfl
    | cons c cs => simp [String.length] at hp0

/-! ### Claims -/

/-- Claim C1: a definition entry is emitted only if its cleaned source
string is non-empty and its list of cleaned paragraphs contains at least
one string of length greater than 1; a heading block with no attribution
sub-element, or with zero surviving paragraphs after cleaning, yields no
entry. -/
theorem entry_emission_invariant (word : String) :
    (∀ doc l e, scrape_punjabipedia_definitions word (.success doc) = Sum.inr l →
      e ∈ l → e.source ≠ "" ∧ ∃ d ∈ e.definitions, 1 < d.length)
    ∧ (∀ heading siblings,
        findTag (fun tg => tg.tag = "small") heading.children = none →
        processBlock word heading siblings = none)
    ∧ (∀ heading siblings,
        cleanedParagraphs word (collectParas siblings) = [] →
        processBlock word heading siblings = none) := by
  refine ⟨?_, ?_, ?_⟩
  · intro doc l e hl he
    have hl' :
        (match findMainContent doc with
          | none => (Sum.inl "Could not find the main content container." :
              Sum String (List DefinitionEntry))
          | some mc => Sum.inr (extractEntries word mc)) = Sum.inr l := hl
    cases hm : findMainContent doc with
    | none => rw [hm] at hl'; exact Sum.noConfusion hl'
    | some mc =>
      rw [hm] at hl'
      injection hl' with hle
      rw [← hle] at he
      unfold extractEntries at he
      rw [List.mem_filterMap] at he
      obtain ⟨b, _, hb⟩ := he
      obtain ⟨h1, h2, h3, _⟩ := processBlock_some_inv word b.1 b.2 e hb
      obtain ⟨d, hd⟩ := List.exists_mem_of_ne_nil _ h2
      exact ⟨h1, d, hd, h3 d hd⟩
  · intro heading siblings h
    unfold processBlock
    rw [h]
  · intro heading siblings h
    by_cases hpb : ∃ e, processBlock word heading siblings = some e
    · obtain ⟨e, he⟩ := hpb
      obtain ⟨_, h2, _, h4⟩ := processBlock_some_inv word heading siblings e he
      rw [h] at h4
      exact absurd h4 h2
    · cases hv : processBlock word heading siblings with
      | none => rfl
      | some e => exact absurd ⟨e, hv⟩ hpb

/-- Witness for C1 on a concrete page and entry. -/
theorem entry_emission_invariant_witness :
    exampleEntry.source ≠ "" ∧ ∃ d ∈ exampleEntry.definitions, 1 < d.length :=
  (entry_emission_invariant "ਸ਼ਬਦ").1 examplePage [exampleEntry] exampleEntry
    (by decide) (by decide)

/-- Claim C2: for every input word and every behaviour of the remote
fetch/parse, a fault never propagates: it is returned as a failure string
carrying one of the code's two human-readable (non-empty) descriptions,
and the call always returns either a failure string or an entry list. -/
theorem faults_never_propagate (word : String) (outcome : FetchOutcome) :
    (outcome.isFault = true → ∃ desc,
        scrape_punjabipedia_definitions word outcome =
          Sum.inl ("An error occurred while fetching the page: " ++ desc) ∨
        scrape_punjabipedia_definitions word outcome =
          Sum.inl ("An unexpected error occurred: " ++ desc))
    ∧ (∀ msg, scrape_punjabipedia_definitions word outcome = Sum.inl msg → msg ≠ "")
    ∧ ((∃ msg, scrape_punjabipedia_definitions word outcome = Sum.inl msg) ∨
       (∃ l, scrape_punjabipedia_definitions word outcome = Sum.inr l)) := by
  cases outcome with
  | success doc =>
    refine ⟨fun h => by simp [FetchOutcome.isFault] at h, ?_, ?_⟩
    · intro msg hmsg
      have hmsg' :
          (match findMainContent doc with
            | none => (Sum.inl "Could not find the main content container." :
                Sum String (List DefinitionEntry))
            | some mc => Sum.inr (extractEntries word mc)) = Sum.inl msg := hmsg
      cases hm : findMainContent doc with
      | none =>
        rw [hm] at hmsg'
        injection hmsg' with h
        rw [← h]
        decide
      | some mc => rw [hm] at hmsg'; exact Sum.noConfusion hmsg'
    · cases hm : findMainContent doc with
      | none =>
        left
        refine ⟨"Could not find the main content container.", ?_⟩
        show (match findMainContent doc with
          | none => (Sum.inl "Could not find the main content container." :
              Sum String (List DefinitionEntry))
          | some mc => Sum.inr (extractEntries word mc)) = _
        rw [hm]
      | some mc =>
        right
        refine ⟨extractEntries word mc, ?_⟩
        show (match findMainContent doc with
          | none => (Sum.inl "Could not find the main content container." :
              Sum String (List DefinitionEntry))
          | some mc => Sum.inr (extractEntries word mc)) = _
        rw [hm]
  | httpError desc =>
    refine ⟨fun _ => ⟨desc, Or.inl rfl⟩, ?_, Or.inl ⟨_, rfl⟩⟩
    intro msg hmsg
    injection hmsg with h
    rw [← h]
    exact append_ne_empty_left _ desc (by decide)
  | transportError desc =>
    refine ⟨fun _ => ⟨desc, Or.inl rfl⟩, ?_, Or.inl ⟨_, rfl⟩⟩
    intro msg hmsg
    injection hmsg with h
    rw [← h]
    exact append_ne_empty_left _ desc (by decide)
  | unexpectedFault desc =>
    refine ⟨fun _ => ⟨desc, Or.inr rfl⟩, ?_, Or.inl ⟨_, rfl⟩⟩
    intro msg hmsg
    injection hmsg with h
    rw [← h]
    exact append_ne_empty_left _ desc (by decide)

/-- Witness for C2 at a concrete fault outcome and a concrete message. -/
theorem faults_never_propagate_witness :
    (∃ desc,
        scrape_punjabipedia_definitions "ਸ਼ਬਦ" (.httpError "404 Client Error") =
          Sum.inl ("An error occurred while fetching the page: " ++ desc) ∨
        scrape_punjabipedia_definitions "ਸ਼ਬਦ" (.httpError "404 Client Error") =
          Sum.inl ("An unexpected error occurred: " ++ desc))
    ∧ ("An error occurred while fetching the page: 404 Client Error" : String) ≠ "" :=
  ⟨(faults_never_propagate "ਸ਼ਬਦ" (.httpError "404 Client Error")).1 (by decide),
   (faults_never_propagate "ਸ਼ਬਦ" (.httpError "404 Client Error")).2.1 _ (by decide)⟩

/-- Claim C3: the paragraph candidates of a heading's block are exactly the
paragraph tags among the heading's following sibling tags up to (not
including) the next `h1` or `hr`, with a collected paragraph that contains
nested paragraph tags replaced by those nested paragraphs; one paragraph
wrapping two inner paragraphs yields two separate candidates. -/
theorem paragraph_candidates_exact :
    (∀ siblings : Dom,
      collectParas siblings =
        (((siblingTags siblings).takeWhile fun tg => !(tg.tag = "h1" || tg.tag = "hr")).filter
            fun tg => tg.tag = "p").flatMap
          fun tg =>
            match findAllTags (fun x => x.tag = "p") tg.children with
            | [] => [tg]
            | nested => nested)
    ∧ collectParas nestedParaSiblings =
        [⟨"p", none, .text "ਪਹਿਲਾ ਅੰਦਰਲਾ" .nil⟩, ⟨"p", none, .text "ਦੂਜਾ ਅੰਦਰਲਾ" .nil⟩] :=
  ⟨collectParas_characterization, by decide⟩

/-- Claim C4: paragraph cleaning strips, case-insensitively and only at the
very start of the text, one leading occurrence of the queried word plus at
most one separator from {period, comma, em-dash, colon} and surrounding
whitespace; a non-leading occurrence is untouched; the spec's example
cleans as stated. -/
theorem leading_word_strip :
    cleanDefinitionText "ਵਿਰਾਸਤ" "ਵਿਰਾਸਤ. ਪਿਓ ਦਾਦੇ ਦੀ ਜਾਇਦਾਦ" = "ਪਿਓ ਦਾਦੇ ਦੀ ਜਾਇਦਾਦ"
    ∧ (∀ word s : String, dropPrefixIC word.data s.data = none → wordSub word s = s)
    ∧ cleanDefinitionText "Spade" "sPaDe, a digging tool" = "a digging tool"
    ∧ wordSub "ਵਿਰਾਸਤ" "ਪਿਓ ਦੀ ਵਿਰਾਸਤ ਹੈ" = "ਪਿਓ ਦੀ ਵਿਰਾਸਤ ਹੈ" := by
  refine ⟨by decide, ?_, by decide, by decide⟩
  intro word s h
  unfold wordSub
  rw [h]

/-- Witness for C4's non-leading-occurrence clause at a concrete input. -/
theorem leading_word_strip_witness :
    wordSub "ਸ਼ਬਦ" "ਹੋਰ ਪਾਠ ਸ਼ਬਦ ਨਾਲ" = "ਹੋਰ ਪਾਠ ਸ਼ਬਦ ਨਾਲ" :=
  leading_word_strip.2.1 "ਸ਼ਬਦ" "ਹੋਰ ਪਾਠ ਸ਼ਬਦ ਨਾਲ" (by decide)

/-- Counterexample to claim C5: the code removes the bracketed span but
does not collapse the whitespace around it, so the spec's example cleans to
`ਅਲੌਕਿਕ  ਅਸਾਧਾਰਨ` (two interior spaces), not to `ਅਲੌਕਿਕ ਅਸਾਧਾਰਨ`. -/
theorem bracket_collapse_counterexample :
    pyStrip (bracketSub "ਅਲੌਕਿਕ [ਵਿਸ਼ੇਸ਼ਣ] ਅਸਾਧਾਰਨ") = "ਅਲੌਕਿਕ  ਅਸਾਧਾਰਨ"
    ∧ cleanDefinitionText "ਵਿਰਾਸਤ" "ਅਲੌਕਿਕ [ਵਿਸ਼ੇਸ਼ਣ] ਅਸਾਧਾਰਨ" = "ਅਲੌਕਿਕ  ਅਸਾਧਾਰਨ"
    ∧ ("ਅਲੌਕਿਕ  ਅਸਾਧਾਰਨ" : String) ≠ "ਅਲੌਕਿਕ ਅਸਾਧਾਰਨ" := by decide

/-- Claim C5 as amended: cleaning removes every bracketed annotation span
(matched non-greedily), but the whitespace around the removed span is kept
as it is — only leading and trailing whitespace of the whole text is
trimmed — so the spec's example cleans to `ਅਲੌਕਿਕ  ਅਸਾਧਾਰਨ` with two
interior spaces. -/
theorem bracket_stripping_amended :
    (∀ pre span post : List Char, '[' ∉ pre → ']' ∉ span → '\n' ∉ span →
      bracketSubAux none (pre ++ '[' :: (span ++ ']' :: post)) =
        pre ++ bracketSubAux none post)
    ∧ pyStrip (bracketSub "ਅਲੌਕਿਕ [ਵਿਸ਼ੇਸ਼ਣ] ਅਸਾਧਾਰਨ") = "ਅਲੌਕਿਕ  ਅਸਾਧਾਰਨ" :=
  ⟨bracketSubAux_removes, by decide⟩

/-- Witness for the amended C5's removal clause at concrete lists. -/
theorem bracket_stripping_amended_witness :
    bracketSubAux none (['x', ' '] ++ '[' :: (['a', 'b'] ++ ']' :: [' ', 'y'])) =
      ['x', ' '] ++ bracketSubAux none [' ', 'y'] :=
  bracket_stripping_amended.1 ['x', ' '] ['a', 'b'] [' ', 'y']
    (by decide) (by decide) (by decide)

/-- Claim C6: the content region is found by the prioritized fallback chain
primary container class, then secondary container class, then document
body, extraction proceeding from whichever is found first; only when all
three are absent is a failure returned. -/
theorem container_fallback (word : String) (doc : Dom) :
    (∀ m, findTag isPrimaryContainer doc = some m →
      scrape_punjabipedia_definitions word (.success doc) =
        Sum.inr (extractEntries word m))
    ∧ (findTag isPrimaryContainer doc = none → ∀ m,
        findTag isSecondaryContainer doc = some m →
        scrape_punjabipedia_definitions word (.success doc) =
          Sum.inr (extractEntries word m))
    ∧ (findTag isPrimaryContainer doc = none →
        findTag isSecondaryContainer doc = none → ∀ m,
        findTag (fun tg => tg.tag = "body") doc = some m →
        scrape_punjabipedia_definitions word (.success doc) =
          Sum.inr (extractEntries word m))
    ∧ (findTag isPrimaryContainer doc = none →
        findTag isSecondaryContainer doc = none →
        findTag (fun tg => tg.tag = "body") doc = none →
        scrape_punjabipedia_definitions word (.success doc) =
          Sum.inl "Could not find the main content container.") := by
  refine ⟨?_, ?_, ?_, ?_⟩
  · intro m h1
    show (match findMainContent doc with
      | none => (Sum.inl "Could not find the main content container." :
          Sum String (List DefinitionEntry))
      | some mc => Sum.inr (extractEntries word mc)) = _
    unfold findMainContent
    rw [h1]
  · intro h1 m h2
    show (match findMainContent doc with
      | none => (Sum.inl "Could not find the main content container." :
          Sum String (List DefinitionEntry))
      | some mc => Sum.inr (extractEntries word mc)) = _
    unfold findMainContent
    rw [h1, h2]
  · intro h1 h2 m h3
    show (match findMainContent doc with
      | none => (Sum.inl "Could not find the main content container." :
          Sum String (List DefinitionEntry))
      | some mc => Sum.inr (extractEntries word mc)) = _
    unfold findMainContent
    rw [h1, h2, h3]
  · intro h1 h2 h3
    show (match findMainContent doc with
      | none => (Sum.inl "Could not find the main content container." :
          Sum String (List DefinitionEntry))
      | some mc => Sum.inr (extractEntries word mc)) = _
    unfold findMainContent
    rw [h1, h2, h3]

/-- Witness for C6 on concrete pages: a page with only the secondary
container succeeds through it, and a page with none of the three fails. -/
theorem container_fallback_witness :
    scrape_punjabipedia_definitions "ਜੀ" (.success pageSecondaryOnly) =
        Sum.inr (extractEntries "ਜੀ" secondaryContent)
    ∧ scrape_punjabipedia_definitions "ਜੀ" (.success pageBare) =
        Sum.inl "Could not find the main content container." :=
  ⟨(container_fallback "ਜੀ" pageSecondaryOnly).2.1 (by decide) secondaryContent (by decide),
   (container_fallback "ਜੀ" pageBare).2.2.2 (by decide) (by decide) (by decide)⟩

/-- Counterexample to claim C7: `str.replace` removes every occurrence of
the `ਸਰੋਤ :` label, not only a leading prefix, so an attribution whose
label sits mid-string is altered although the claim says it must be left
as it is; the emitted source differs from the claim's prediction. -/
theorem source_label_counterexample :
    cleanSource "ਪੰਜਾਬੀ ਕੋਸ਼ ਸਰੋਤ : ਭਾਸ਼ਾ ਵਿਭਾਗ" = "ਪੰਜਾਬੀ ਕੋਸ਼  ਭਾਸ਼ਾ ਵਿਭਾਗ"
    ∧ scrape_punjabipedia_definitions "ਜੀ" (.success pageMidLabel) =
        Sum.inr [⟨"ਪੰਜਾਬੀ ਕੋਸ਼  ਭਾਸ਼ਾ ਵਿਭਾਗ", ["ਕੁਝ ਪਰਿਭਾਸ਼ਾ ਪਾਠ"]⟩]
    ∧ ("ਪੰਜਾਬੀ ਕੋਸ਼  ਭਾਸ਼ਾ ਵਿਭਾਗ" : String) ≠ "ਪੰਜਾਬੀ ਕੋਸ਼ ਸਰੋਤ : ਭਾਸ਼ਾ ਵਿਭਾਗ" := by decide

/-- Claim C7 as amended: the emitted source string equals the attribution
text with every occurrence of the literal `ਸਰੋਤ :` label removed (not only
a leading one) and whitespace trimmed; a block whose source is empty after
this step yields no entry. -/
theorem source_label_amended :
    cleanSource "ਸਰੋਤ : ਨਾਮ" = "ਨਾਮ"
    ∧ cleanSource "ਪੰਜਾਬੀ ਕੋਸ਼ ਸਰੋਤ : ਭਾਸ਼ਾ ਵਿਭਾਗ" = "ਪੰਜਾਬੀ ਕੋਸ਼  ਭਾਸ਼ਾ ਵਿਭਾਗ"
    ∧ (∀ word heading siblings e,
        processBlock word heading siblings = some e → e.source ≠ "") := by
  refine ⟨by decide, by decide, ?_⟩
  intro word heading siblings e he
  exact (processBlock_some_inv word heading siblings e he).1

/-- Witness for the amended C7's non-empty-source clause at a concrete
block. -/
theorem source_label_amended_witness : exampleEntry.source ≠ "" :=
  source_label_amended.2.2 "ਸ਼ਬਦ" exampleHeading exampleSiblings exampleEntry (by decide)

/-- Counterexample to claim C8: the code anchors blocks with a recursive
`find_all('h1')`, so a heading nested below a non-top-level `div` of the
content region still yields an entry even though the region has no
top-level heading element at all. -/
theorem top_level_heading_counterexample :
    scrape_punjabipedia_definitions "ਜੀ" (.success pageNestedHeading) =
        Sum.inr [exampleEntry]
    ∧ findMainContent pageNestedHeading = some nestedContent
    ∧ topLevelHeadings nestedContent = [] := by decide

/-- Claim C8 as amended: all `h1` heading elements of the content region at
any depth, in document order, anchor the candidate definition blocks, and
the returned entries appear in the order of their headings with no
reordering and no deduplication (two identical blocks yield two entries). -/
theorem headings_anchor_blocks_amended :
    (∀ d : Dom, (findBlocks d).map Prod.fst = findAllTags (fun tg => tg.tag = "h1") d)
    ∧ scrape_punjabipedia_definitions "ਜੀ" (.success pageDuplicateBlocks) =
        Sum.inr [dupEntry, dupEntry] :=
  ⟨findBlocks_map_fst, by decide⟩

/-- Claim C9: when the fetch succeeds and a content container is found but
zero qualifying entries are extracted (for example, zero headings), the
call returns the empty entry list, which is distinct from every failure
value. -/
theorem empty_result_not_failure (word : String) (doc : Dom) (mc : Tag)
    (h : findMainContent doc = some mc) :
    scrape_punjabipedia_definitions word (.success doc) =
        Sum.inr (extractEntries word mc)
    ∧ (findAllTags (fun tg => tg.tag = "h1") mc.children = [] →
        extractEntries word mc = [])
    ∧ (∀ msg, (Sum.inr (extractEntries word mc) : Sum String (List DefinitionEntry)) ≠
        Sum.inl msg) := by
  refine ⟨?_, ?_, ?_⟩
  · show (match findMainContent doc with
      | none => (Sum.inl "Could not find the main content container." :
          Sum String (List DefinitionEntry))
      | some mc => Sum.inr (extractEntries word mc)) = _
    rw [h]
  · intro hall
    have hb : (findBlocks mc.children).map Prod.fst = [] := by
      rw [findBlocks_map_fst, hall]
    unfold extractEntries
    rw [List.map_eq_nil_iff.mp hb]
    rfl
  · intro msg hmsg
    exact Sum.noConfusion hmsg

/-- Witness for C9 on a page whose container holds no headings. -/
theorem empty_result_not_failure_witness :
    scrape_punjabipedia_definitions "ਓ" (.success pageNoHeadings) =
        Sum.inr (extractEntries "ਓ" emptyContent)
    ∧ extractEntries "ਓ" emptyContent = [] :=
  ⟨(empty_result_not_failure "ਓ" pageNoHeadings emptyContent (by decide)).1,
   (empty_result_not_failure "ਓ" pageNoHeadings emptyContent (by decide)).2.1 (by decide)⟩

/-- Claim C10: only sibling tags whose own name is `p` contribute
candidates during the sibling walk; a paragraph nested inside another kind
of sibling (such as a `div`) is never collected, so its text is silently
dropped. -/
theorem non_paragraph_siblings_dropped :
    (∀ siblings : Dom,
        (((siblingTags siblings).takeWhile fun tg => !(tg.tag = "h1" || tg.tag = "hr")).all
            fun tg => !(tg.tag = "p")) = true →
        collectParas siblings = [])
    ∧ processBlock "ਸ਼ਬਦ" headingWithSmall divWrappedSiblings = none
    ∧ findAllTags (fun tg => tg.tag = "p") divWrappedSiblings ≠ [] := by
  refine ⟨?_, by decide, by decide⟩
  intro siblings hall
  rw [collectParas_characterization]
  have hfil :
      (((siblingTags siblings).takeWhile fun tg => !(tg.tag = "h1" || tg.tag = "hr")).filter
        fun tg => tg.tag = "p") = [] := by
    rw [List.filter_eq_nil_iff]
    intro a ha
    have := List.all_eq_true.mp hall a ha
    simpa using this
  rw [hfil]
  rfl

/-- Witness for C10's no-paragraph-sibling clause at the concrete
div-wrapped siblings. -/
theorem non_paragraph_siblings_dropped_witness :
    collectParas divWrappedSiblings = [] :=
  non_paragraph_siblings_dropped.1 divWrappedSiblings (by decide)
